import Mathlib

/-!
Verification of the record-mapper layer of the `smexperiments` package,
with `TrialComponent` (src/smexperiments/trial_component.py) as the
concrete record type.  The class-level declarations of `TrialComponent`
(attribute list, custom-type table, update/delete member lists, operation
names, the ignore-list extension) are translated directly from the source
file.  The generic `Record` base machinery (`_base_types.Record`) and the
`api_types` value objects are not part of the provided sources; they are
modelled from the specification, as marked on each definition.
-/

namespace SMExperiments

/-- Primitive field values carried over the wire (strings, integers,
booleans; datetimes are treated as opaque primitives). -/
inductive Prim where
  | str (s : String)
  | int (n : Int)
  | bool (b : Bool)
deriving DecidableEq, Repr

/-- A remote request/response field value: a primitive, a nested mapping
(custom value object), or a sequence of nested mappings. -/
inductive Value where
  | prim (p : Prim)
  | obj (fields : List (String × Prim))
  | objList (objs : List (List (String × Prim)))
deriving DecidableEq, Repr

/-- A local attribute value held on a record instance: a primitive, a
custom value object (modelled, per the spec, as the data holder of the
response sub-mapping it was instantiated from), or a list of custom
value objects. -/
inductive AttrValue where
  | prim (p : Prim)
  | custom (fields : List (String × Prim))
  | customList (objs : List (List (String × Prim)))
deriving DecidableEq, Repr

/-- Modelled from the spec (§4.1, missing `_base_types` casing helper):
capitalize one underscore-separated word (first character upper-cased,
rest lower-cased, as Python `str.title` does per word). -/
def capitalizeWord : List Char → List Char
  | [] => []
  | c :: rest => c.toUpper :: rest.map Char.toLower

/-- Modelled from the spec (§4.1, missing `_base_types` casing helper):
split a character list on underscores. -/
def splitOnUnderscore : List Char → List (List Char)
  | [] => [[]]
  | c :: rest =>
    let r := splitOnUnderscore rest
    if c = '_' then [] :: r
    else
      match r with
      | [] => [[c]]
      | w :: ws => (c :: w) :: ws

/-- Modelled from the spec (§4.1, missing `_base_types` converter):
convert a lower-case underscore-separated attribute name to the
capitalized-word remote field name, e.g.
`trial_component_name ↦ TrialComponentName`. -/
def to_remote_case (s : String) : String :=
  String.mk (List.flatten ((splitOnUnderscore s.data).map capitalizeWord))

/-- Modelled from the spec (§4.1, missing `_base_types` converter):
helper walking the characters of a remote field name with the previous
character as context, inserting an underscore at word boundaries
(lower/digit followed by upper, or an upper run followed by an
upper-then-lower start of a new word) and lower-casing everything. -/
def localCaseAux : Char → List Char → List Char
  | _, [] => []
  | prev, c :: rest =>
    if c.isUpper &&
        (prev.isLower || prev.isDigit ||
          (prev.isUpper && (match rest with | r :: _ => r.isLower | [] => false))) then
      '_' :: c.toLower :: localCaseAux c rest
    else
      c.toLower :: localCaseAux c rest

/-- Modelled from the spec (§4.1, missing `_base_types` converter):
convert a remote capitalized-word field name back to the lower-case
underscore-separated attribute name, handling consecutive-capital
abbreviations, e.g. `TrialComponentName ↦ trial_component_name` and
`TrialComponentARN ↦ trial_component_arn`. -/
def to_local_case (s : String) : String :=
  match s.data with
  | [] => ""
  | c :: rest => String.mk (c.toLower :: localCaseAux c rest)

/-- Modelled from the spec (§2, §9): the static per-type descriptor a
concrete record type supplies to the generic mapper — declared
attributes, the custom-type table (attribute name with an is-list flag),
the update/delete member lists, the remote ignore-list, and the four
declared operation names. -/
structure RecordDescriptor where
  attributes : List String
  customTypes : List (String × Bool)
  updateMembers : List String
  deleteMembers : List String
  ignoreList : List String
  loadMethod : String
  createMethod : String
  updateMethod : String
  deleteMethod : String
deriving DecidableEq, Repr

/-- A record instance: an association of each declared attribute name to
an optional attribute value (`none` is the absent sentinel). -/
abbrev Instance : Type := List (String × Option AttrValue)

/-- Read an attribute's current value off an instance. -/
def getAttr : Instance → String → Option AttrValue
  | [], _ => none
  | (k, v) :: rest, a => if k = a then v else getAttr rest a

/-- Set a declared attribute's value on an instance (attributes not
declared on the instance are unaffected). -/
def setAttr (inst : Instance) (a : String) (v : AttrValue) : Instance :=
  inst.map (fun p => if p.1 = a then (p.1, some v) else p)

/-- A fresh instance of a record type: every declared attribute present
and set to `none`. -/
def emptyInstance (d : RecordDescriptor) : Instance :=
  d.attributes.map (fun a => (a, none))

/-- Serialize a local attribute value into its remote representation: a
primitive passes through unchanged, a custom value object becomes its
nested mapping, a list of custom value objects becomes a sequence of
nested mappings. -/
def serializeAttr : AttrValue → Value
  | .prim p => .prim p
  | .custom fields => .obj fields
  | .customList objs => .objList objs

/-- Look up an attribute in a custom-type table, returning its is-list
flag when the attribute has a declared custom type. -/
def lookupCustomType : List (String × Bool) → String → Option Bool
  | [], _ => none
  | (k, b) :: rest, a => if k = a then some b else lookupCustomType rest a

/-- Modelled from the spec (§4.3, missing `_base_types` deserializer):
deserialize one remote value into an attribute value — for an attribute
with a declared custom type construct one custom-type instance per
nested mapping (a single object or one per element of the sequence), for
a plain attribute copy the primitive directly; a value of the wrong
shape produces no attribute value. -/
def deserAttr (d : RecordDescriptor) (a : String) (v : Value) : Option AttrValue :=
  match lookupCustomType d.customTypes a with
  | some true =>
    match v with
    | .objList objs => some (.customList objs)
    | _ => none
  | some false =>
    match v with
    | .obj fields => some (.custom fields)
    | _ => none
  | none =>
    match v with
    | .prim p => some (.prim p)
    | _ => none

/-- Modelled from the spec (§4.3, missing `_base_types` deserializer):
process one response field — a field whose remote name is on the
ignore-list is skipped entirely; otherwise the name is converted to
local casing and, when it is a declared attribute and the value has the
declared shape, the attribute is set; unknown or ill-shaped fields are
silently dropped. -/
def deserializeField (d : RecordDescriptor) (inst : Instance) (k : String) (v : Value) :
    Instance :=
  if k ∈ d.ignoreList then inst
  else if to_local_case k ∈ d.attributes then
    match deserAttr d (to_local_case k) v with
    | some av => setAttr inst (to_local_case k) av
    | none => inst
  else inst

/-- Modelled from the spec (§4.3, missing `_base_types` deserializer):
deserialize a whole response mapping into an instance, field by field. -/
def deserialize (d : RecordDescriptor) (resp : List (String × Value)) (inst : Instance) :
    Instance :=
  resp.foldl (fun acc p => deserializeField d acc p.1 p.2) inst

/-- Modelled from the spec (§4.2, missing `_base_types` projection):
build a request mapping from named optional values — every `none` is
omitted and every present value appears under its remote-cased key. -/
def buildRequest (kwargs : List (String × Option AttrValue)) : List (String × Value) :=
  kwargs.filterMap (fun p => p.2.map (fun av => (to_remote_case p.1, serializeAttr av)))

/-- Modelled from the spec (§4.2, missing `_base_types` projection):
project the listed member attributes of an instance into a request
mapping, omitting attributes whose current value is `none`. -/
def projectRequest (inst : Instance) (members : List String) :
    List (String × Value) :=
  buildRequest (members.map (fun m => (m, getAttr inst m)))

/-- Modelled from the spec (§6, §7): the failure modes of the transport
client collaborator — a distinguishable not-found condition versus a
generic service/transport error. -/
inductive ApiError where
  | notFound
  | service (msg : String)
deriving DecidableEq, Repr

/-- Modelled from the spec (§6): the transport client collaborator — a
callable surface keyed by operation name, accepting a request mapping
and returning a response mapping or failing with an `ApiError`. -/
def Client : Type :=
  String → List (String × Value) → Except ApiError (List (String × Value))

/-- Modelled from the spec (§4.4, missing `_base_types._construct`):
build the request from the given named fields (`none` omitted), invoke
the named operation on the client, and deserialize the response into a
fresh instance; any client error propagates unchanged. -/
def construct (client : Client) (d : RecordDescriptor) (method : String)
    (kwargs : List (String × Option AttrValue)) : Except ApiError Instance :=
  (client method (buildRequest kwargs)).map
    (fun resp => deserialize d resp (emptyInstance d))

/-- Modelled from the spec (§4.4, missing `_base_types._invoke_api`):
project the listed member attributes of the instance, invoke the named
operation on the client, and discard the response; any client error
propagates unchanged. -/
def invoke_api (client : Client) (method : String)
    (members : List String) (inst : Instance) : Except ApiError Unit :=
  (client method (projectRequest inst members)).map (fun _ => ())

/-- One page of a list operation: the page's summary mappings plus an
optional continuation token. -/
structure ListPage where
  summaries : List (List (String × Prim))
  nextToken : Option String
deriving DecidableEq, Repr

/-- Modelled from the spec (§3): a summary value object — a read-only
data holder instantiated purely from one response sub-mapping. -/
def summaryFromBoto (m : List (String × Prim)) : List (String × Prim) := m

/-- Modelled from the spec (§4.4, missing `_base_types._list`): the
paginated listing loop — issue the page request for the current
continuation token, yield every summary of the page (through the
summary constructor), and, exactly when a continuation token is present,
fetch the next page and continue; stop at the first page without one.
Returns the yielded summaries together with the number of remote calls
issued.  The `fuel` argument is an artifact of the embedding bounding
the recursion; any fuel at least the number of pages gives the full
result. -/
def listWithFuel (client : Option String → ListPage) :
    Nat → Option String → List (List (String × Prim)) × Nat
  | 0, _ => ([], 0)
  | fuel + 1, tok =>
    let page := client tok
    let ss := page.summaries.map summaryFromBoto
    match page.nextToken with
    | none => (ss, 1)
    | some t =>
      let r := listWithFuel client fuel (some t)
      (ss ++ r.1, r.2 + 1)

namespace TrialComponent

/-- The declared attributes of `TrialComponent`
(trial_component.py lines 28–42). -/
def attributes : List String :=
  ["trial_component_name", "trial_component_arn", "display_name", "source",
   "status", "start_time", "end_time", "creation_time", "created_by",
   "last_modified_time", "last_modified_by", "parameters",
   "input_artifacts", "output_artifacts", "metrics"]

/-- The custom-type table of `TrialComponent`
(trial_component.py lines 49–56): attribute name paired with whether the
attribute holds a list of custom objects. -/
def custom_boto_types : List (String × Bool) :=
  [("source", false), ("status", false), ("parameters", false),
   ("input_artifacts", true), ("output_artifacts", true), ("metrics", true)]

/-- The update-member list of `TrialComponent`
(trial_component.py lines 58–67). -/
def boto_update_members : List String :=
  ["trial_component_name", "display_name", "status", "start_time",
   "end_time", "parameters", "input_artifacts", "output_artifacts"]

/-- The delete-member list of `TrialComponent`
(trial_component.py line 68). -/
def boto_delete_members : List String := ["trial_component_name"]

/-- The ignore-list of `TrialComponent` (trial_component.py lines 70–72):
the base `Record` ignore-list — modelled from the spec (§4.3), which
describes it as meta-fields such as response headers, hence
`ResponseMetadata` — extended with `CreatedBy`. -/
def boto_ignore : List String := ["ResponseMetadata", "CreatedBy"]

/-- The complete static descriptor of `TrialComponent`, assembled from
the class-level declarations of trial_component.py. -/
def descriptor : RecordDescriptor :=
  { attributes := attributes
    customTypes := custom_boto_types
    updateMembers := boto_update_members
    deleteMembers := boto_delete_members
    ignoreList := boto_ignore
    loadMethod := "describe_trial_component"
    createMethod := "create_trial_component"
    updateMethod := "update_trial_component"
    deleteMethod := "delete_trial_component" }

/-- The request `load` sends: the identity field only
(trial_component.py lines 82–99 via the modelled `construct`). -/
def loadRequest (name : String) : List (String × Value) :=
  buildRequest [("trial_component_name", some (.prim (.str name)))]

/-- `TrialComponent.load` (trial_component.py lines 82–99): invoke the
declared load operation keyed by the trial component name and return a
populated instance. -/
def load (client : Client) (name : String) : Except ApiError Instance :=
  construct client descriptor descriptor.loadMethod
    [("trial_component_name", some (.prim (.str name)))]

/-- The request `create` sends: the identity field plus the optional
display name, `none` omitted (trial_component.py lines 101–115 via the
modelled `construct`). -/
def createRequest (name : String) (displayName : Option String) : List (String × Value) :=
  buildRequest
    [("trial_component_name", some (.prim (.str name))),
     ("display_name", displayName.map (fun s => .prim (.str s)))]

/-- `TrialComponent.create` (trial_component.py lines 101–115): invoke
the declared create operation with the given name and optional display
name and return a new populated instance. -/
def create (client : Client) (name : String) (displayName : Option String) :
    Except ApiError Instance :=
  construct client descriptor descriptor.createMethod
    [("trial_component_name", some (.prim (.str name))),
     ("display_name", displayName.map (fun s => .prim (.str s)))]

/-- `TrialComponent.save` (trial_component.py lines 74–76): project the
declared update members and invoke the declared update operation. -/
def save (client : Client) (inst : Instance) : Except ApiError Unit :=
  invoke_api client descriptor.updateMethod descriptor.updateMembers inst

/-- `TrialComponent.delete` (trial_component.py lines 78–80): project
the declared delete members and invoke the declared delete operation. -/
def delete (client : Client) (inst : Instance) : Except ApiError Unit :=
  invoke_api client descriptor.deleteMethod descriptor.deleteMembers inst

/-- `TrialComponent.list` (trial_component.py lines 117–166): iterate
the pages of the declared list operation starting from the given
continuation token, yielding every trial component summary. -/
def list (client : Option String → ListPage) (fuel : Nat) (nextToken : Option String) :
    List (List (String × Prim)) × Nat :=
  listWithFuel client fuel nextToken

/-- The remote-cased field names of the declared attributes. -/
def remoteFieldNames : List String := attributes.map to_remote_case

end TrialComponent

/-- Decidable configuration check: every declared update and delete
member is also a declared attribute of the type. -/
def configOk (d : RecordDescriptor) : Bool :=
  d.updateMembers.all (fun m => d.attributes.contains m) &&
    d.deleteMembers.all (fun m => d.attributes.contains m)

/-- The response mapping obtained by remote-casing a set of attribute
values: each attribute name goes to its remote-cased field name, each
value to its remote representation. -/
def mkResponse (vals : List (String × AttrValue)) : List (String × Value) :=
  vals.map (fun p => (to_remote_case p.1, serializeAttr p.2))

/-- Whether an attribute value has the shape the descriptor declares for
the attribute: a list of custom objects for a list-flagged custom type,
a single custom object for an unflagged custom type, a primitive for a
plain attribute. -/
def shapeOk (d : RecordDescriptor) (a : String) (v : AttrValue) : Bool :=
  match lookupCustomType d.customTypes a, v with
  | some true, .customList _ => true
  | some false, .custom _ => true
  | none, .prim _ => true
  | _, _ => false

/-- Summary mapping A of the scripted pagination scenario. -/
def summaryA : List (String × Prim) := [("TrialComponentName", .str "A")]

/-- Summary mapping B of the scripted pagination scenario. -/
def summaryB : List (String × Prim) := [("TrialComponentName", .str "B")]

/-- Summary mapping C of the scripted pagination scenario. -/
def summaryC : List (String × Prim) := [("TrialComponentName", .str "C")]

/-- Scripted transport collaborator for the pagination scenario: the
first page holds summaries A and B with continuation token `"T"`; the
page requested with token `"T"` holds summary C and no token; any other
token keeps returning an empty page with the same token, so only a call
made with exactly `"T"` terminates the iteration after two calls. -/
def scriptedListClient : Option String → ListPage
  | none => { summaries := [summaryA, summaryB], nextToken := some "T" }
  | some t =>
    if t = "T" then { summaries := [summaryC], nextToken := none }
    else { summaries := [], nextToken := some t }

/-- The scripted create response of the end-to-end example. -/
def createResponse : List (String × Value) :=
  [("TrialComponentName", .prim (.str "tc-1")),
   ("TrialComponentArn", .prim (.str "arn:...:tc-1"))]

/-- Scripted transport collaborator for the end-to-end create example:
it answers with the scripted response only when it receives exactly the
create operation and exactly the expected request mapping, and fails any
other call, so a successful create proves what the collaborator
received. -/
def createScriptClient : Client := fun op req =>
  if op = "create_trial_component" ∧
      req = [("TrialComponentName", Value.prim (.str "tc-1")),
             ("DisplayName", Value.prim (.str "Step 1"))] then
    .ok createResponse
  else .error (.service "unexpected call")

/-- A response containing a `CreatedBy` audit field next to an ordinary
field. -/
def createdByResponse : List (String × Value) :=
  [("CreatedBy", .prim (.str "someone")), ("TrialComponentName", .prim (.str "tc"))]

/-- A transport collaborator answering every call with the same
response. -/
def constClient (resp : List (String × Value)) : Client := fun _ _ => .ok resp

/-- A transport collaborator failing every call with the given error. -/
def failClient (e : ApiError) : Client := fun _ _ => .error e

/-- An instance with only the display name set, used to exhibit the
`None`-omission of request projection on a concrete input. -/
def displayOnlyInstance : Instance :=
  setAttr (emptyInstance TrialComponent.descriptor) "display_name"
    (.prim (.str "Step 1"))

/-- A concrete set of attribute values covering a primitive attribute, a
single custom-type attribute and a list-of-custom-type attribute, used
to exhibit the deserialization round trip. -/
def roundtripVals : List (String × AttrValue) :=
  [("display_name", .prim (.str "Step 1")),
   ("source", .custom [("SourceArn", .str "arn:src")]),
   ("metrics", .customList [[("MetricName", .str "m1")], [("MetricName", .str "m2")]])]

section InstanceLemmas

theorem getAttr_cons (k : String) (w : Option AttrValue) (rest : Instance) (a : String) :
    getAttr ((k, w) :: rest) a = if k = a then w else getAttr rest a := rfl

theorem setAttr_cons (p : String × Option AttrValue) (rest : Instance) (a : String)
    (v : AttrValue) :
    setAttr (p :: rest) a v =
      (if p.1 = a then (p.1, some v) else p) :: setAttr rest a v := rfl

theorem keys_setAttr (inst : Instance) (a : String) (v : AttrValue) :
    (setAttr inst a v).map Prod.fst = inst.map Prod.fst := by
  induction inst with
  | nil => rfl
  | cons p rest ih =>
    rw [setAttr_cons, List.map_cons, List.map_cons, ih]
    by_cases hp : p.1 = a
    · simp [hp]
    · simp [hp]

theorem getAttr_setAttr_self (inst : Instance) (a : String) (v : AttrValue)
    (h : a ∈ inst.map Prod.fst) : getAttr (setAttr inst a v) a = some v := by
  induction inst with
  | nil => simp at h
  | cons p rest ih =>
    rw [setAttr_cons]
    by_cases hp : p.1 = a
    · rw [if_pos hp]
      rw [getAttr_cons, if_pos hp]
    · rw [if_neg hp]
      obtain ⟨k, w⟩ := p
      rw [getAttr_cons, if_neg hp]
      apply ih
      rcases List.mem_cons.mp h with h1 | h1
      · exact absurd h1.symm hp
      · exact h1

theorem getAttr_setAttr_ne (inst : Instance) (a b : String) (v : AttrValue)
    (h : b ≠ a) : getAttr (setAttr inst a v) b = getAttr inst b := by
  induction inst with
  | nil => rfl
  | cons p rest ih =>
    obtain ⟨k, w⟩ := p
    rw [setAttr_cons]
    by_cases hp : k = a
    · simp only at hp
      rw [if_pos hp]
      rw [getAttr_cons, getAttr_cons, ih]
      rw [if_neg (hp ▸ fun hba => h hba.symm), if_neg (fun hba => h (hp ▸ hba).symm)]
    · simp only at hp
      rw [if_neg hp, getAttr_cons, getAttr_cons, ih]

theorem getAttr_emptyInstance (d : RecordDescriptor) (a : String) :
    getAttr (emptyInstance d) a = none := by
  unfold emptyInstance
  induction d.attributes with
  | nil => rfl
  | cons x rest ih =>
    rw [List.map_cons, getAttr_cons]
    by_cases hx : x = a
    · rw [if_pos hx]
    · rw [if_neg hx]
      exact ih

theorem keys_emptyInstance (d : RecordDescriptor) :
    (emptyInstance d).map Prod.fst = d.attributes := by
  unfold emptyInstance
  induction d.attributes with
  | nil => rfl
  | cons x rest ih => rw [List.map_cons, List.map_cons, ih]

end InstanceLemmas

section DeserializeLemmas

theorem deserializeField_ignored (d : RecordDescriptor) (inst : Instance) (k : String)
    (v : Value) (h : k ∈ d.ignoreList) : deserializeField d inst k v = inst := by
  unfold deserializeField
  rw [if_pos h]

theorem deserializeField_unknown (d : RecordDescriptor) (inst : Instance) (k : String)
    (v : Value) (h : to_local_case k ∉ d.attributes) : deserializeField d inst k v = inst := by
  unfold deserializeField
  by_cases h1 : k ∈ d.ignoreList
  · rw [if_pos h1]
  · rw [if_neg h1, if_neg h]

theorem keys_deserializeField (d : RecordDescriptor) (inst : Instance) (k : String)
    (v : Value) : (deserializeField d inst k v).map Prod.fst = inst.map Prod.fst := by
  unfold deserializeField
  by_cases h1 : k ∈ d.ignoreList
  · rw [if_pos h1]
  · rw [if_neg h1]
    by_cases h2 : to_local_case k ∈ d.attributes
    · rw [if_pos h2]
      cases deserAttr d (to_local_case k) v with
      | none => rfl
      | some av => exact keys_setAttr inst (to_local_case k) av
    · rw [if_neg h2]

theorem deserialize_nil (d : RecordDescriptor) (inst : Instance) :
    deserialize d [] inst = inst := rfl

theorem deserialize_cons (d : RecordDescriptor) (p : String × Value)
    (rest : List (String × Value)) (inst : Instance) :
    deserialize d (p :: rest) inst = deserialize d rest (deserializeField d inst p.1 p.2) := rfl

theorem keys_deserialize (d : RecordDescriptor) (resp : List (String × Value))
    (inst : Instance) : (deserialize d resp inst).map Prod.fst = inst.map Prod.fst := by
  induction resp generalizing inst with
  | nil => rfl
  | cons p rest ih =>
    rw [deserialize_cons, ih, keys_deserializeField]

theorem getAttr_deserializeField_ne (d : RecordDescriptor) (inst : Instance) (k : String)
    (v : Value) (a : String) (h : to_local_case k ≠ a) :
    getAttr (deserializeField d inst k v) a = getAttr inst a := by
  unfold deserializeField
  by_cases h1 : k ∈ d.ignoreList
  · rw [if_pos h1]
  · rw [if_neg h1]
    by_cases h2 : to_local_case k ∈ d.attributes
    · rw [if_pos h2]
      cases deserAttr d (to_local_case k) v with
      | none => rfl
      | some av => exact getAttr_setAttr_ne inst (to_local_case k) a av (fun hb => h hb.symm)
    · rw [if_neg h2]

theorem deserAttr_serializeAttr (d : RecordDescriptor) (a : String) (v : AttrValue)
    (h : shapeOk d a v = true) : deserAttr d a (serializeAttr v) = some v := by
  unfold shapeOk at h
  unfold deserAttr serializeAttr
  cases hl : lookupCustomType d.customTypes a with
  | none =>
    rw [hl] at h
    cases v <;> simp_all
  | some b =>
    rw [hl] at h
    cases b <;> cases v <;> simp_all

end DeserializeLemmas

section ProjectionLemmas

theorem projectRequest_eq (inst : Instance) (members : List String) :
    projectRequest inst members =
      (members.map (fun m => (m, getAttr inst m))).filterMap
        (fun p => p.2.map (fun av => (to_remote_case p.1, serializeAttr av))) := rfl

theorem mem_projectRequest_of_some (members : List String) (inst : Instance) (a : String)
    (v : AttrValue) (ha : a ∈ members) (hv : getAttr inst a = some v) :
    (to_remote_case a, serializeAttr v) ∈ projectRequest inst members := by
  rw [projectRequest_eq, List.mem_filterMap]
  refine ⟨(a, getAttr inst a), List.mem_map_of_mem _ ha, ?_⟩
  rw [hv]
  rfl

theorem not_mem_projectRequest_keys (members : List String) (inst : Instance) (a : String)
    (hnone : getAttr inst a = none)
    (hinj : ∀ b ∈ members, to_remote_case b = to_remote_case a → b = a) :
    to_remote_case a ∉ (projectRequest inst members).map Prod.fst := by
  intro hmem
  rw [List.mem_map] at hmem
  obtain ⟨q, hq, hq1⟩ := hmem
  rw [projectRequest_eq, List.mem_filterMap] at hq
  obtain ⟨p, hp, hfp⟩ := hq
  rw [List.mem_map] at hp
  obtain ⟨m, hm, rfl⟩ := hp
  cases hg : getAttr inst m with
  | none => simp [hg] at hfp
  | some av =>
    simp only [hg, Option.map_some'] at hfp
    have hqm : q = (to_remote_case m, serializeAttr av) := Option.some.inj hfp.symm
    have hma : to_remote_case m = to_remote_case a := by
      rw [← hq1, hqm]
    have : m = a := hinj m hm hma
    rw [this, hnone] at hg
    exact Option.noConfusion hg

end ProjectionLemmas

section RoundtripLemmas

theorem getAttr_deserialize_not_mem (d : RecordDescriptor) (resp : List (String × Value))
    (inst : Instance) (a : String)
    (h : ∀ k ∈ resp.map Prod.fst, k ∈ d.ignoreList ∨ to_local_case k ≠ a) :
    getAttr (deserialize d resp inst) a = getAttr inst a := by
  induction resp generalizing inst with
  | nil => rfl
  | cons p rest ih =>
    rw [deserialize_cons, ih _ (fun k hk => h k (by simp [hk]))]
    rcases h p.1 (by simp) with h1 | h1
    · rw [deserializeField_ignored _ _ _ _ h1]
    · rw [getAttr_deserializeField_ne _ _ _ _ _ h1]

theorem deserialize_mkResponse_aux (d : RecordDescriptor) (vals : List (String × AttrValue)) :
    ∀ inst : Instance, inst.map Prod.fst = d.attributes →
      (vals.map Prod.fst).Nodup →
      (∀ p ∈ vals, p.1 ∈ d.attributes ∧ to_remote_case p.1 ∉ d.ignoreList ∧
        to_local_case (to_remote_case p.1) = p.1 ∧ shapeOk d p.1 p.2 = true) →
      (∀ p ∈ vals, getAttr (deserialize d (mkResponse vals) inst) p.1 = some p.2) ∧
        (∀ a, a ∉ vals.map Prod.fst →
          getAttr (deserialize d (mkResponse vals) inst) a = getAttr inst a) := by
  induction vals with
  | nil =>
    intro inst _ _ _
    exact ⟨by simp, fun a _ => rfl⟩
  | cons hd tl ih =>
    intro inst hkeys hnodup hall
    obtain ⟨a0, v0⟩ := hd
    rw [List.map_cons] at hnodup
    have hn := List.nodup_cons.mp hnodup
    have h0 := hall (a0, v0) (List.mem_cons_self _ _)
    have hstep : deserializeField d inst (to_remote_case a0) (serializeAttr v0) =
        setAttr inst a0 v0 := by
      unfold deserializeField
      rw [if_neg h0.2.1, h0.2.2.1, if_pos h0.1, deserAttr_serializeAttr d a0 v0 h0.2.2.2]
    have hres : deserialize d (mkResponse ((a0, v0) :: tl)) inst =
        deserialize d (mkResponse tl) (setAttr inst a0 v0) := by
      show deserialize d (mkResponse tl)
          (deserializeField d inst (to_remote_case a0) (serializeAttr v0)) = _
      rw [hstep]
    have hkeys' : (setAttr inst a0 v0).map Prod.fst = d.attributes := by
      rw [keys_setAttr]
      exact hkeys
    have ih' := ih (setAttr inst a0 v0) hkeys' hn.2
      (fun p hp => hall p (List.mem_cons_of_mem _ hp))
    refine ⟨?_, ?_⟩
    · intro p hp
      rcases List.mem_cons.mp hp with heq | hp'
      · subst heq
        rw [hres, ih'.2 a0 hn.1]
        refine getAttr_setAttr_self inst a0 v0 ?_
        rw [hkeys]
        exact h0.1
      · rw [hres]
        exact ih'.1 p hp'
    · intro a ha
      rw [List.map_cons] at ha
      have ha1 : a ≠ a0 := fun h => ha (h ▸ List.mem_cons_self _ _)
      have ha2 : a ∉ tl.map Prod.fst := fun h => ha (List.mem_cons_of_mem _ h)
      rw [hres, ih'.2 a ha2, getAttr_setAttr_ne inst a0 a v0 ha1]

end RoundtripLemmas

section OrchestrationLemmas

theorem construct_error (client : Client) (d : RecordDescriptor) (method : String)
    (kwargs : List (String × Option AttrValue)) (e : ApiError)
    (h : client method (buildRequest kwargs) = .error e) :
    construct client d method kwargs = .error e := by
  unfold construct
  rw [h]
  rfl

theorem construct_ok (client : Client) (d : RecordDescriptor) (method : String)
    (kwargs : List (String × Option AttrValue)) (resp : List (String × Value))
    (h : client method (buildRequest kwargs) = .ok resp) :
    construct client d method kwargs = .ok (deserialize d resp (emptyInstance d)) := by
  unfold construct
  rw [h]
  rfl

theorem invoke_api_error (client : Client) (method : String) (members : List String)
    (inst : Instance) (e : ApiError)
    (h : client method (projectRequest inst members) = .error e) :
    invoke_api client method members inst = .error e := by
  unfold invoke_api
  rw [h]
  rfl

theorem invoke_api_ok (client : Client) (method : String) (members : List String)
    (inst : Instance) (resp : List (String × Value))
    (h : client method (projectRequest inst members) = .ok resp) :
    invoke_api client method members inst = .ok () := by
  unfold invoke_api
  rw [h]
  rfl

end OrchestrationLemmas

/-- Claim C1: with the scripted collaborator whose first page holds
summaries A and B with continuation token "T" and whose page for token
"T" holds summary C and no token, `TrialComponent.list` yields exactly
A, B, C in order while issuing exactly two remote calls; in general the
iterator yields every summary of the current page, stops after a single
call when the page carries no continuation token, and fetches exactly
the next page and continues when one is present. -/
theorem claim_C1_pagination :
    (∀ fuel : Nat,
      TrialComponent.list scriptedListClient (fuel + 2) none =
        ([summaryA, summaryB, summaryC], 2)) ∧
    (∀ (client : Option String → ListPage) (fuel : Nat) (tok : Option String),
      (client tok).nextToken = none →
      TrialComponent.list client (fuel + 1) tok =
        ((client tok).summaries.map summaryFromBoto, 1)) ∧
    (∀ (client : Option String → ListPage) (fuel : Nat) (tok : Option String) (t : String),
      (client tok).nextToken = some t →
      TrialComponent.list client (fuel + 1) tok =
        ((client tok).summaries.map summaryFromBoto ++
            (TrialComponent.list client fuel (some t)).1,
          (TrialComponent.list client fuel (some t)).2 + 1)) := by
  refine ⟨?_, ?_, ?_⟩
  · intro fuel
    show listWithFuel scriptedListClient (fuel + 2) none = _
    simp [listWithFuel, scriptedListClient, summaryFromBoto]
  · intro client fuel tok h
    show listWithFuel client (fuel + 1) tok = _
    rw [listWithFuel]
    simp [h]
  · intro client fuel tok t h
    show listWithFuel client (fuel + 1) tok = _
    rw [listWithFuel]
    simp [h, TrialComponent.list]

/-- Witness for claim C1: the general single-page case applied to the
scripted collaborator at token "T", whose page has no continuation
token, yields exactly summary C in one call. -/
theorem claim_C1_pagination_witness :
    TrialComponent.list scriptedListClient 3 (some "T") = ([summaryC], 1) := by
  have h := claim_C1_pagination.2.1 scriptedListClient 2 (some "T") rfl
  simpa [scriptedListClient, summaryFromBoto] using h

/-- Claim C2: `create` with name "tc-1" and display name "Step 1" sends
the create operation exactly the request mapping
`{TrialComponentName: "tc-1", DisplayName: "Step 1"}` (the scripted
collaborator fails any other call), and with the scripted response the
resulting instance has `trial_component_name = "tc-1"` and
`trial_component_arn = "arn:...:tc-1"`. -/
theorem claim_C2_create_end_to_end :
    TrialComponent.createRequest "tc-1" (some "Step 1") =
      [("TrialComponentName", Value.prim (.str "tc-1")),
       ("DisplayName", Value.prim (.str "Step 1"))] ∧
    (TrialComponent.create createScriptClient "tc-1" (some "Step 1")).map
        (fun inst =>
          (getAttr inst "trial_component_name", getAttr inst "trial_component_arn")) =
      Except.ok (some (AttrValue.prim (.str "tc-1")),
        some (AttrValue.prim (.str "arn:...:tc-1"))) :=
  ⟨rfl, rfl⟩

/-- Claim C3: the casing converter is a total, deterministic, mutually
inverse pair on the names used by `TrialComponent`: every declared
attribute name and every remote-cased field name round-trips, and a
remote name with a consecutive-capital abbreviation round-trips through
the idempotence equation as well. -/
theorem claim_C3_casing_roundtrip :
    (∀ a ∈ TrialComponent.attributes,
      to_local_case (to_remote_case a) = a ∧
      to_remote_case (to_local_case (to_remote_case a)) = to_remote_case a) ∧
    (∀ r ∈ TrialComponent.remoteFieldNames,
      to_remote_case (to_local_case r) = r ∧
      to_local_case (to_remote_case (to_local_case r)) = to_local_case r) ∧
    (to_local_case "TrialComponentARN" = "trial_component_arn" ∧
      to_local_case (to_remote_case (to_local_case "TrialComponentARN")) =
        to_local_case "TrialComponentARN") := by
  refine ⟨by decide, by decide, by decide⟩

/-- Witness for claim C3: the round trip evaluated at the declared
attribute name `trial_component_name`. -/
theorem claim_C3_casing_roundtrip_witness :
    to_local_case (to_remote_case "trial_component_name") = "trial_component_name" :=
  (claim_C3_casing_roundtrip.1 "trial_component_name" (by decide)).1

/-- Claim C4: for every instance and both request member lists of
`TrialComponent` (the update members and the delete members), a member
attribute whose current value is `none` is absent from the projected
request mapping, and a member attribute with a present value appears
under its remote-cased key. -/
theorem claim_C4_projection_omits_none :
    ∀ members : List String,
      members = TrialComponent.boto_update_members ∨
        members = TrialComponent.boto_delete_members →
      ∀ (inst : Instance) (a : String), a ∈ members →
        (getAttr inst a = none →
          to_remote_case a ∉ (projectRequest inst members).map Prod.fst) ∧
        (∀ v : AttrValue, getAttr inst a = some v →
          (to_remote_case a, serializeAttr v) ∈ projectRequest inst members) := by
  intro members hm inst a ha
  have hinj : ∀ b ∈ members, to_remote_case b = to_remote_case a → b = a := by
    have hgen : ∀ b ∈ members, ∀ c ∈ members,
        to_remote_case b = to_remote_case c → b = c := by
      rcases hm with rfl | rfl
      · decide
      · decide
    exact fun b hb he => hgen b hb a ha he
  exact ⟨fun hnone => not_mem_projectRequest_keys members inst a hnone hinj,
    fun v hv => mem_projectRequest_of_some members inst a v ha hv⟩

/-- Witness for claim C4: on the instance holding only a display name,
the projected update request omits `TrialComponentName` (whose attribute
is `none`) and contains the display name under its remote-cased key. -/
theorem claim_C4_projection_omits_none_witness :
    to_remote_case "trial_component_name" ∉
      (projectRequest displayOnlyInstance TrialComponent.boto_update_members).map
        Prod.fst ∧
    (to_remote_case "display_name", serializeAttr (.prim (.str "Step 1"))) ∈
      projectRequest displayOnlyInstance TrialComponent.boto_update_members := by
  constructor
  · exact (claim_C4_projection_omits_none TrialComponent.boto_update_members
      (Or.inl rfl) displayOnlyInstance "trial_component_name" (by decide)).1 (by decide)
  · exact (claim_C4_projection_omits_none TrialComponent.boto_update_members
      (Or.inl rfl) displayOnlyInstance "display_name" (by decide)).2
      (.prim (.str "Step 1")) (by decide)

/-- Counterexample to claim C5 as stated: `created_by` is a declared
attribute of `TrialComponent`, yet the set of attribute values
consisting of `created_by = "someone"` does not round-trip — its
remote-cased field `CreatedBy` is on the ignore-list, so deserializing
the response mapping obtained from it leaves the attribute `none`. -/
theorem claim_C5_counterexample :
    getAttr (deserialize TrialComponent.descriptor
        (mkResponse [("created_by", AttrValue.prim (.str "someone"))])
        (emptyInstance TrialComponent.descriptor)) "created_by" ≠
      some (AttrValue.prim (.str "someone")) := by decide

/-- Claim C5 (amended: restricted to attributes whose remote-cased field
is not on the ignore-list, i.e. excluding `created_by`): for every such
set of well-shaped `TrialComponent` attribute values, deserializing the
response mapping obtained by remote-casing those values into a fresh
instance yields attribute values equal to the originals, and every
declared attribute absent from the response is left `none`. -/
theorem claim_C5_deserialize_roundtrip :
    ∀ vals : List (String × AttrValue),
      (vals.map Prod.fst).Nodup →
      (∀ p ∈ vals, p.1 ∈ TrialComponent.attributes ∧ p.1 ≠ "created_by" ∧
        shapeOk TrialComponent.descriptor p.1 p.2 = true) →
      (∀ p ∈ vals,
        getAttr (deserialize TrialComponent.descriptor (mkResponse vals)
          (emptyInstance TrialComponent.descriptor)) p.1 = some p.2) ∧
      (∀ a ∈ TrialComponent.attributes, a ∉ vals.map Prod.fst →
        getAttr (deserialize TrialComponent.descriptor (mkResponse vals)
          (emptyInstance TrialComponent.descriptor)) a = none) := by
  intro vals hnodup hall
  have hfacts : ∀ a ∈ TrialComponent.attributes, a ≠ "created_by" →
      to_remote_case a ∉ TrialComponent.descriptor.ignoreList ∧
        to_local_case (to_remote_case a) = a := by decide
  have haux := deserialize_mkResponse_aux TrialComponent.descriptor vals
    (emptyInstance TrialComponent.descriptor) (keys_emptyInstance _) hnodup
    (fun p hp => by
      obtain ⟨h1, h2, h3⟩ := hall p hp
      obtain ⟨h4, h5⟩ := hfacts p.1 h1 h2
      exact ⟨h1, h4, h5, h3⟩)
  refine ⟨haux.1, fun a _ ha => ?_⟩
  rw [haux.2 a ha, getAttr_emptyInstance]

/-- Witness for (amended) claim C5: the concrete value set holding a
primitive display name, a custom source object and a list of metric
objects round-trips — here evaluated at the custom-type attribute
`source`. -/
theorem claim_C5_deserialize_roundtrip_witness :
    getAttr (deserialize TrialComponent.descriptor (mkResponse roundtripVals)
        (emptyInstance TrialComponent.descriptor)) "source" =
      some (AttrValue.custom [("SourceArn", .str "arn:src")]) :=
  (claim_C5_deserialize_roundtrip roundtripVals (by decide) (by decide)).1
    ("source", AttrValue.custom [("SourceArn", .str "arn:src")]) (by decide)

/-- Claim C6: `CreatedBy` is on the ignore-list of `TrialComponent`;
deserialization skips every ignore-listed field entirely, silently drops
every field whose local-cased name is not a declared attribute, never
adds attribute keys to an instance, and a response consisting only of
ignored or unknown fields leaves the instance unchanged (deserialization
is a total function — no response field raises). -/
theorem claim_C6_ignored_and_unknown_fields :
    "CreatedBy" ∈ TrialComponent.descriptor.ignoreList ∧
    (∀ (inst : Instance) (k : String) (v : Value),
      k ∈ TrialComponent.descriptor.ignoreList →
      deserializeField TrialComponent.descriptor inst k v = inst) ∧
    (∀ (inst : Instance) (k : String) (v : Value),
      to_local_case k ∉ TrialComponent.descriptor.attributes →
      deserializeField TrialComponent.descriptor inst k v = inst) ∧
    (∀ (resp : List (String × Value)) (inst : Instance),
      (deserialize TrialComponent.descriptor resp inst).map Prod.fst =
        inst.map Prod.fst) ∧
    (∀ (resp : List (String × Value)) (inst : Instance),
      (∀ k ∈ resp.map Prod.fst, k ∈ TrialComponent.descriptor.ignoreList ∨
        to_local_case k ∉ TrialComponent.descriptor.attributes) →
      deserialize TrialComponent.descriptor resp inst = inst) := by
  refine ⟨by decide, fun inst k v h => deserializeField_ignored _ _ _ _ h,
    fun inst k v h => deserializeField_unknown _ _ _ _ h,
    fun resp inst => keys_deserialize _ _ _, ?_⟩
  intro resp
  induction resp with
  | nil => intro inst _; rfl
  | cons p rest ih =>
    intro inst h
    rw [deserialize_cons]
    have hstep : deserializeField TrialComponent.descriptor inst p.1 p.2 = inst := by
      rcases h p.1 (by simp) with h1 | h1
      · exact deserializeField_ignored _ _ _ _ h1
      · exact deserializeField_unknown _ _ _ _ h1
    rw [hstep]
    exact ih inst (fun k hk => h k (by simp [hk]))

/-- Witness for claim C6: a `CreatedBy` field is skipped entirely, and an
unknown field `FooBar` is silently dropped, on a fresh instance. -/
theorem claim_C6_ignored_and_unknown_fields_witness :
    deserializeField TrialComponent.descriptor (emptyInstance TrialComponent.descriptor)
        "CreatedBy" (Value.prim (.str "someone")) =
      emptyInstance TrialComponent.descriptor ∧
    deserializeField TrialComponent.descriptor (emptyInstance TrialComponent.descriptor)
        "FooBar" (Value.prim (.str "x")) =
      emptyInstance TrialComponent.descriptor :=
  ⟨claim_C6_ignored_and_unknown_fields.2.1 _ "CreatedBy" _ (by decide),
   claim_C6_ignored_and_unknown_fields.2.2.1 _ "FooBar" _ (by decide)⟩

/-- Claim C7: a collaborator reporting the not-found condition makes
`load` fail with exactly the not-found condition, which is
distinguishable from every generic service error; and every collaborator
error on the load, create, update and delete operations propagates
unchanged to the caller — no operation suppresses a failure. -/
theorem claim_C7_error_propagation :
    ∀ (client : Client) (name : String) (dn : Option String) (inst : Instance),
      (client TrialComponent.descriptor.loadMethod (TrialComponent.loadRequest name) =
          Except.error ApiError.notFound →
        TrialComponent.load client name = Except.error ApiError.notFound ∧
        ∀ msg, TrialComponent.load client name ≠ Except.error (ApiError.service msg)) ∧
      (∀ e, client TrialComponent.descriptor.loadMethod (TrialComponent.loadRequest name) =
          Except.error e → TrialComponent.load client name = Except.error e) ∧
      (∀ e, client TrialComponent.descriptor.createMethod
          (TrialComponent.createRequest name dn) = Except.error e →
        TrialComponent.create client name dn = Except.error e) ∧
      (∀ e, client TrialComponent.descriptor.updateMethod
          (projectRequest inst TrialComponent.descriptor.updateMembers) =
            Except.error e →
        TrialComponent.save client inst = Except.error e) ∧
      (∀ e, client TrialComponent.descriptor.deleteMethod
          (projectRequest inst TrialComponent.descriptor.deleteMembers) =
            Except.error e →
        TrialComponent.delete client inst = Except.error e) := by
  intro client name dn inst
  have hload : ∀ e, client TrialComponent.descriptor.loadMethod
      (TrialComponent.loadRequest name) = Except.error e →
      TrialComponent.load client name = Except.error e :=
    fun e he => construct_error client TrialComponent.descriptor _ _ e he
  refine ⟨?_, hload, ?_, ?_, ?_⟩
  · intro h
    have h1 := hload ApiError.notFound h
    refine ⟨h1, fun msg h2 => ?_⟩
    rw [h1] at h2
    exact ApiError.noConfusion (Except.error.inj h2)
  · exact fun e he => construct_error client TrialComponent.descriptor _ _ e he
  · exact fun e he => invoke_api_error client _ _ inst e he
  · exact fun e he => invoke_api_error client _ _ inst e he

/-- Witness for claim C7: a collaborator that always reports not-found
makes `load "missing"` fail with exactly the not-found condition. -/
theorem claim_C7_error_propagation_witness :
    TrialComponent.load (failClient ApiError.notFound) "missing" =
      Except.error ApiError.notFound :=
  ((claim_C7_error_propagation (failClient ApiError.notFound) "missing" none []).1
    rfl).1

/-- Claim C8: `save` projects exactly the declared update-member
attributes of the instance, invokes exactly the declared update
operation, and returns no value (`Unit` on success); a collaborator
failure surfaces to the caller unchanged.  The instance itself is an
input only — `save` produces no modified instance, so the local
attribute state is untouched regardless of the outcome. -/
theorem claim_C8_save :
    TrialComponent.descriptor.updateMembers = TrialComponent.boto_update_members ∧
    (∀ (client : Client) (inst : Instance),
      TrialComponent.save client inst =
        (client "update_trial_component"
          (projectRequest inst TrialComponent.boto_update_members)).map (fun _ => ())) ∧
    (∀ (client : Client) (inst : Instance) (e : ApiError),
      client "update_trial_component"
          (projectRequest inst TrialComponent.boto_update_members) = Except.error e →
      TrialComponent.save client inst = Except.error e) ∧
    (∀ (client : Client) (inst : Instance) (resp : List (String × Value)),
      client "update_trial_component"
          (projectRequest inst TrialComponent.boto_update_members) = Except.ok resp →
      TrialComponent.save client inst = Except.ok ()) := by
  refine ⟨rfl, fun client inst => rfl, ?_, ?_⟩
  · exact fun client inst e h => invoke_api_error client _ _ inst e h
  · exact fun client inst resp h => invoke_api_ok client _ _ inst resp h

/-- Witness for claim C8: a collaborator that always fails with a
generic service error makes `save` fail with exactly that error. -/
theorem claim_C8_save_witness :
    TrialComponent.save (failClient (ApiError.service "boom")) displayOnlyInstance =
      Except.error (ApiError.service "boom") :=
  claim_C8_save.2.2.1 (failClient (ApiError.service "boom")) displayOnlyInstance
    (ApiError.service "boom") rfl

/-- Claim C9: the configuration check passes for `TrialComponent` —
every declared update member and delete member is also a declared
attribute; the delete-member list is exactly the identity attribute
`trial_component_name`, whose remote casing is `TrialComponentName`,
and `delete` therefore projects at most that single identity key. -/
theorem claim_C9_members_are_attributes :
    configOk TrialComponent.descriptor = true ∧
    (∀ m ∈ TrialComponent.descriptor.updateMembers,
      m ∈ TrialComponent.descriptor.attributes) ∧
    (∀ m ∈ TrialComponent.descriptor.deleteMembers,
      m ∈ TrialComponent.descriptor.attributes) ∧
    TrialComponent.descriptor.deleteMembers = ["trial_component_name"] ∧
    to_remote_case "trial_component_name" = "TrialComponentName" ∧
    (∀ inst : Instance,
      (projectRequest inst TrialComponent.descriptor.deleteMembers).map Prod.fst =
        if getAttr inst "trial_component_name" = none then []
        else [to_remote_case "trial_component_name"]) := by
  refine ⟨by decide, by decide, by decide, rfl, by decide, ?_⟩
  intro inst
  show (projectRequest inst ["trial_component_name"]).map Prod.fst = _
  cases hg : getAttr inst "trial_component_name" with
  | none => simp [projectRequest_eq, hg]
  | some v => simp [projectRequest_eq, hg]

/-- Witness for claim C9: the identity member is a declared attribute,
and on the instance holding only a display name the projected delete
request is empty (its identity attribute is `none`). -/
theorem claim_C9_members_are_attributes_witness :
    "trial_component_name" ∈ TrialComponent.descriptor.attributes ∧
    (projectRequest displayOnlyInstance
        TrialComponent.descriptor.deleteMembers).map Prod.fst = [] := by
  constructor
  · exact claim_C9_members_are_attributes.2.2.1 "trial_component_name" (by decide)
  · rw [claim_C9_members_are_attributes.2.2.2.2.2 displayOnlyInstance]
    decide

/-- Claim C10: for every response whose field names are remote-cased
declared attribute names (`CreatedBy` included), an instance produced by
`load` or by `create` has `created_by = none` — `CreatedBy` is on the
ignore-list while `created_by` is a declared attribute, so neither
operation ever populates it from a response. -/
theorem claim_C10_created_by_never_populated :
    ∀ (resp : List (String × Value)) (name : String) (dn : Option String),
      (∀ k ∈ resp.map Prod.fst, k ∈ TrialComponent.remoteFieldNames) →
      (∀ inst, TrialComponent.load (constClient resp) name = Except.ok inst →
        getAttr inst "created_by" = none) ∧
      (∀ inst, TrialComponent.create (constClient resp) name dn = Except.ok inst →
        getAttr inst "created_by" = none) := by
  intro resp name dn h
  have hfact : ∀ k ∈ TrialComponent.remoteFieldNames,
      k ∈ TrialComponent.descriptor.ignoreList ∨ to_local_case k ≠ "created_by" := by
    decide
  have hmain : getAttr (deserialize TrialComponent.descriptor resp
      (emptyInstance TrialComponent.descriptor)) "created_by" = none := by
    rw [getAttr_deserialize_not_mem TrialComponent.descriptor resp _ "created_by"
      (fun k hk => hfact k (h k hk)), getAttr_emptyInstance]
  constructor
  · intro inst hinst
    have h2 : (Except.ok (deserialize TrialComponent.descriptor resp
        (emptyInstance TrialComponent.descriptor)) : Except ApiError Instance) =
        Except.ok inst := hinst
    rw [Except.ok.inj h2] at hmain
    exact hmain
  · intro inst hinst
    have h2 : (Except.ok (deserialize TrialComponent.descriptor resp
        (emptyInstance TrialComponent.descriptor)) : Except ApiError Instance) =
        Except.ok inst := hinst
    rw [Except.ok.inj h2] at hmain
    exact hmain

/-- Witness for claim C10: loading against a response that carries a
`CreatedBy` field (next to the trial component name) yields an instance
whose `created_by` is `none`. -/
theorem claim_C10_created_by_never_populated_witness :
    getAttr (deserialize TrialComponent.descriptor createdByResponse
        (emptyInstance TrialComponent.descriptor)) "created_by" = none :=
  (claim_C10_created_by_never_populated createdByResponse "tc" none (by decide)).1
    (deserialize TrialComponent.descriptor createdByResponse
      (emptyInstance TrialComponent.descriptor)) rfl

end SMExperiments
